import Mathlib

/-!
Verification of the MCP server manager VS Code extension
(src/extension.ts, src/serverManager.ts).

JavaScript objects are modelled as open records (`JSEntry`) whose fields
are `Option`-valued: `none` models an absent (`undefined`) field, exactly
as `JSON.stringify` drops `undefined` properties.  String-typed enum
fields (`transport`, `scope`, `auth.type`) are modelled as `String`
because at runtime any string can flow into them through loaded JSON and
casts.  `Map<string, T>` is modelled as an association list with the
JavaScript `Map` operations (`get` finds the entry, `set` updates in
place or appends, `delete` removes the entry); JavaScript maps never
hold a duplicate key, and theorems that need key uniqueness take it as a
hypothesis.  Interactive prompts (`showInputBox`) are modelled by an
explicit list of user responses (`none` = cancelled), and each
authentication routine reports the prompts it showed, the resulting
in-memory token map and the token map persisted to `globalState` (if
any).
-/

namespace MCPExt

/-- AuthConfig from serverManager.ts (fields optional except the kind). -/
structure AuthConfig where
  type : String
  provider : Option String := none
  clientId : Option String := none
  scopes : Option (List String) := none
  tokenUrl : Option String := none
  authUrl : Option String := none
deriving DecidableEq

/-- AuthToken from serverManager.ts. -/
structure AuthToken where
  accessToken : String
  refreshToken : Option String := none
  expiresAt : Option Nat := none
  tokenType : Option String := none
deriving DecidableEq

/-- An MCP server entry as a JavaScript object: every field may be
absent.  Typed `MCPServerConfig` values made by `addServer` populate
`name`, `transport` and `scope`; entries parsed back from a persisted
document instead carry `type` (the on-disk field name) and lack
`name`/`transport`. -/
structure JSEntry where
  name : Option String := none
  transport : Option String := none
  type : Option String := none
  command : Option String := none
  url : Option String := none
  args : Option (List String) := none
  env : Option (List (String × String)) := none
  scope : Option String := none
  auth : Option AuthConfig := none
deriving DecidableEq

/-- JavaScript `Map.get`. -/
def mapGet {α : Type} : List (String × α) → String → Option α
  | [], _ => none
  | p :: rest, k => if p.1 = k then some p.2 else mapGet rest k

/-- JavaScript `Map.has`. -/
def mapHas {α : Type} (m : List (String × α)) (k : String) : Bool :=
  (mapGet m k).isSome

/-- JavaScript `Map.set`: update in place if the key exists, else append. -/
def mapSet {α : Type} : List (String × α) → String → α → List (String × α)
  | [], k, v => [(k, v)]
  | p :: rest, k, v => if p.1 = k then (k, v) :: rest else p :: mapSet rest k v

/-- JavaScript `Map.delete`. -/
def mapDelete {α : Type} (m : List (String × α)) (k : String) : List (String × α) :=
  m.filter (fun p => !(p.1 == k))

abbrev ServersMap := List (String × JSEntry)
abbrev TokensMap := List (String × AuthToken)
abbrev ScopeDoc := List (String × JSEntry)

/-- The two persisted scope documents (`.vscode/mcp.json` and the global
storage `mcp.json`); `none` models a missing/unreadable file
(`readJsonFile` returns `null`). -/
structure Disk where
  workspaceDoc : Option ScopeDoc := none
  globalDoc : Option ScopeDoc := none
deriving DecidableEq

/-- JavaScript truthiness of an optional string (`undefined` and `""`
are falsy). -/
def truthy : Option String → Bool
  | none => false
  | some s => s != ""

/-- `{...config, scope}` — the spread performed for each loaded entry in
`loadServers`. -/
def loadEntry (sc : String) (e : JSEntry) : JSEntry :=
  { e with scope := some sc }

/-- The first `forEach` of `loadServers`: insert every entry of the
workspace document, tagged with its scope. -/
def loadScopeEntries (sc : String) (doc : ScopeDoc) (m0 : ServersMap) : ServersMap :=
  doc.foldl (fun m p => mapSet m p.1 (loadEntry sc p.2)) m0

/-- The second `forEach` of `loadServers`: insert a global entry only if
its name is not already present (workspace takes precedence). -/
def loadGlobalEntries (doc : ScopeDoc) (m0 : ServersMap) : ServersMap :=
  doc.foldl (fun m p => if mapHas m p.1 then m else mapSet m p.1 (loadEntry "global" p.2)) m0

/-- `MCPServerManager.loadServers`, starting from the empty map of the
constructor. -/
def loadServers (workspaceDoc globalDoc : Option ScopeDoc) : ServersMap :=
  loadGlobalEntries (globalDoc.getD []) (loadScopeEntries "workspace" (workspaceDoc.getD []) [])

/-- The per-entry serialisation of `saveServers`: `command`, `args || []`,
`env || {}`, `type: transport`, and `url` only when truthy.  Fields whose
value is `undefined` (`command`, `type`) are dropped by
`JSON.stringify`, which the `Option` encoding reflects. -/
def persistEntry (c : JSEntry) : JSEntry :=
  let base : JSEntry :=
    { command := c.command
      args := some (c.args.getD [])
      env := some (c.env.getD [])
      type := c.transport }
  if truthy c.url then { base with url := c.url } else base

/-- The partition loop of `saveServers`: entries whose `scope` field is
exactly `"workspace"` go to the workspace document, all others to the
global document. -/
def partitionServers (m : ServersMap) : ScopeDoc × ScopeDoc :=
  m.foldl
    (fun acc p =>
      if p.2.scope = some "workspace" then (acc.1 ++ [(p.1, persistEntry p.2)], acc.2)
      else (acc.1, acc.2 ++ [(p.1, persistEntry p.2)]))
    ([], [])

/-- `MCPServerManager.saveServers`: each scope document is written only
when its partition is non-empty (`Object.keys(...).length > 0`). -/
def saveServers (m : ServersMap) (d : Disk) : Disk :=
  let ws := (partitionServers m).1
  let gl := (partitionServers m).2
  let d1 := if ws.length > 0 then { d with workspaceDoc := some ws } else d
  if gl.length > 0 then { d1 with globalDoc := some gl } else d1

/-- The manager state: in-memory servers map, in-memory auth tokens, and
the persisted documents. -/
structure ManagerState where
  servers : ServersMap := []
  authTokens : TokensMap := []
  disk : Disk := {}
deriving DecidableEq

/-- `MCPServerManager.addServer`: unconditionally `set` then persist. -/
def addServer (st : ManagerState) (c : JSEntry) : ManagerState :=
  let servers := mapSet st.servers (c.name.getD "") c
  { st with servers := servers, disk := saveServers servers st.disk }

/-- `MCPServerManager.removeServer`: delete from the servers map then
persist; the token maps are not touched. -/
def removeServer (st : ManagerState) (n : String) : ManagerState :=
  let servers := mapDelete st.servers n
  { st with servers := servers, disk := saveServers servers st.disk }

/-- `MCPServerManager.getServer`. -/
def getServer (st : ManagerState) (n : String) : Option JSEntry :=
  mapGet st.servers n

/-- `MCPServerManager.getAllServers`. -/
def getAllServers (st : ManagerState) : List JSEntry :=
  st.servers.map (fun p => p.2)

/-- `MCPServerManager.getAuthToken`. -/
def getAuthToken (st : ManagerState) (n : String) : Option AuthToken :=
  mapGet st.authTokens n

/-- The `validateInput` callback of the add-server command in
extension.ts: rejects an empty/blank name and a name already known to
the manager. -/
def validateInput (st : ManagerState) (value : String) : Option String :=
  if value = "" ∨ value.trim.length = 0 then some "Server name is required"
  else if (getServer st value).isSome then some "Server name already exists"
  else none

/-- Writing then reading back the documents (a fresh disk is written, as
after a scope document is first created). -/
def roundTrip (m : ServersMap) : ServersMap :=
  let d := saveServers m {}
  loadServers d.workspaceDoc d.globalDoc

/-! Authentication.  `Buffer.from(s).toString('base64')` is UTF-8
encoding followed by standard base64 with padding. -/

/-- UTF-8 encoding of one character, as a list of byte values. -/
def encodeCharUtf8 (c : Char) : List Nat :=
  let n := c.toNat
  if n < 128 then [n]
  else if n < 2048 then [192 + n / 64, 128 + n % 64]
  else if n < 65536 then [224 + n / 4096, 128 + n / 64 % 64, 128 + n % 64]
  else [240 + n / 262144, 128 + n / 4096 % 64, 128 + n / 64 % 64, 128 + n % 64]

/-- UTF-8 encoding of a string. -/
def utf8Bytes (s : String) : List Nat :=
  s.data.foldr (fun c acc => encodeCharUtf8 c ++ acc) []

/-- The standard base64 alphabet. -/
def base64Chars : List Char :=
  "ABCDEFGHIJKLMNOPQRSTUVWXYZabcdefghijklmnopqrstuvwxyz0123456789+/".data

/-- The base64 digit for a 6-bit value. -/
def base64Char (n : Nat) : Char :=
  base64Chars.getD n '?'

/-- Standard base64 of a byte list, with `=` padding. -/
def base64Chunks : List Nat → List Char
  | b0 :: b1 :: b2 :: rest =>
    let n := b0 * 65536 + b1 * 256 + b2
    base64Char (n / 262144) :: base64Char (n / 4096 % 64) ::
      base64Char (n / 64 % 64) :: base64Char (n % 64) :: base64Chunks rest
  | [b0, b1] =>
    let n := b0 * 1024 + b1 * 4
    [base64Char (n / 4096), base64Char (n / 64 % 64), base64Char (n % 64), '=']
  | [b0] =>
    let n := b0 * 16
    [base64Char (n / 64), base64Char (n % 64), '=', '=']
  | [] => []

/-- `Buffer.from(s).toString('base64')`. -/
def base64Encode (s : String) : String :=
  String.mk (base64Chunks (utf8Bytes s))

/-- The result of an authentication attempt: the boolean returned, the
in-memory token map afterwards, the token map written to `globalState`
by `saveAuthTokens` (`none` when no save happened), and the prompts
shown, in order. -/
structure AuthResult where
  success : Bool
  tokens : TokensMap
  savedTokens : Option TokensMap
  prompts : List String
deriving DecidableEq

/-- The username prompt message of `authenticateBasic`. -/
def usernamePrompt (serverName : String) : String :=
  "Enter username for " ++ serverName

/-- The password prompt message of `authenticateBasic`. -/
def passwordPrompt (serverName : String) : String :=
  "Enter password for " ++ serverName

/-- The prompt message of `authenticateApiKey`. -/
def apiKeyPrompt (serverName : String) : String :=
  "Enter API key for " ++ serverName

/-- The prompt message of `authenticateOAuth2`. -/
def oauthPrompt (serverName provider : String) : String :=
  "Enter access token for " ++ serverName ++ " (" ++ provider ++ ")"

/-- `MCPServerManager.authenticateOAuth2`: bails out before any prompt
unless both `provider` and `clientId` are truthy; otherwise one secret
prompt, and a truthy response is stored as a Bearer token and saved. -/
def authenticateOAuth2 (serverName : String) (auth : AuthConfig) (tks : TokensMap)
    (input : Option String) : AuthResult :=
  if !truthy auth.provider || !truthy auth.clientId then
    ⟨false, tks, none, []⟩
  else
    let shown := [oauthPrompt serverName (auth.provider.getD "")]
    let t := input.getD ""
    if t = "" then ⟨false, tks, none, shown⟩
    else
      let tks2 := mapSet tks serverName { accessToken := t, tokenType := some "Bearer" }
      ⟨true, tks2, some tks2, shown⟩

/-- `MCPServerManager.authenticateApiKey`: one secret prompt; a truthy
response is stored as a Bearer token and saved. -/
def authenticateApiKey (serverName : String) (tks : TokensMap)
    (input : Option String) : AuthResult :=
  let shown := [apiKeyPrompt serverName]
  let k := input.getD ""
  if k = "" then ⟨false, tks, none, shown⟩
  else
    let tks2 := mapSet tks serverName { accessToken := k, tokenType := some "Bearer" }
    ⟨true, tks2, some tks2, shown⟩

/-- `MCPServerManager.authenticateBasic`: username prompt, then (only if
the username is truthy) a password prompt; both truthy stores
`base64(username:password)` as a Basic token and saves. -/
def authenticateBasic (serverName : String) (tks : TokensMap)
    (input1 input2 : Option String) : AuthResult :=
  let username := input1.getD ""
  if username = "" then ⟨false, tks, none, [usernamePrompt serverName]⟩
  else
    let shown := [usernamePrompt serverName, passwordPrompt serverName]
    let password := input2.getD ""
    if password = "" then ⟨false, tks, none, shown⟩
    else
      let tks2 := mapSet tks serverName
        { accessToken := base64Encode (username ++ ":" ++ password), tokenType := some "Basic" }
      ⟨true, tks2, some tks2, shown⟩

/-- `MCPServerManager.authenticateServer`: returns false when the server
is absent or has no `auth`; otherwise dispatches on `auth.type`, with a
default branch returning false.  `inputs` supplies the responses to the
prompts in order (`none` = cancelled). -/
def authenticateServer (st : ManagerState) (serverName : String)
    (inputs : List (Option String)) : AuthResult :=
  match mapGet st.servers serverName with
  | none => ⟨false, st.authTokens, none, []⟩
  | some server =>
    match server.auth with
    | none => ⟨false, st.authTokens, none, []⟩
    | some a =>
      if a.type = "oauth2" then
        authenticateOAuth2 serverName a st.authTokens (inputs.getD 0 none)
      else if a.type = "api_key" then
        authenticateApiKey serverName st.authTokens (inputs.getD 0 none)
      else if a.type = "basic" then
        authenticateBasic serverName st.authTokens (inputs.getD 0 none) (inputs.getD 1 none)
      else ⟨false, st.authTokens, none, []⟩

/-- The workspace partition of `saveServers`, as a filter of the
in-memory map. -/
def wsOf (m : ServersMap) : ScopeDoc :=
  (m.filter (fun p => p.2.scope = some "workspace")).map (fun p => (p.1, persistEntry p.2))

/-- The global partition of `saveServers`, as a filter of the in-memory
map. -/
def glOf (m : ServersMap) : ScopeDoc :=
  (m.filter (fun p => !(p.2.scope = some "workspace" : Bool))).map
    (fun p => (p.1, persistEntry p.2))

/-! Concrete fixtures used by the witnesses and counterexamples. -/

/-- A workspace document entry whose fields are a strict subset of the
global entry `gEnt` sharing its name. -/
def wEnt : JSEntry := { command := some "wcmd" }

/-- A global document entry with the same name as `wEnt` and more
fields. -/
def gEnt : JSEntry := { command := some "gcmd", url := some "http://g", args := some ["x"] }

/-- A registered server named `a`. -/
def cfgDupOld : JSEntry :=
  { name := some "a", transport := some "stdio", command := some "old",
    scope := some "workspace" }

/-- A second config reusing the name `a` with a different command. -/
def cfgDupNew : JSEntry :=
  { name := some "a", transport := some "stdio", command := some "new",
    scope := some "workspace" }

/-- A manager state already holding server `a`. -/
def stDup : ManagerState := { servers := [("a", cfgDupOld)] }

/-- A workspace-scoped server for the round-trip counterexample; its
optional `args`, `env` and `url` are unset. -/
def cfgRT : JSEntry :=
  { name := some "a", transport := some "stdio", command := some "run",
    scope := some "workspace" }

/-- A global-scoped server for the round-trip witness. -/
def cfgRTG : JSEntry :=
  { name := some "b", transport := some "http", url := some "http://b",
    env := some [("K", "V")], scope := some "global" }

/-- A mixed map holding one workspace-scoped and one global-scoped
server. -/
def mRT : ServersMap := [("a", cfgRT), ("b", cfgRTG)]

/-- A stale on-disk workspace entry. -/
def staleEnt : JSEntry := { command := some "stale" }

/-- A global-scoped server, so the workspace partition is empty. -/
def cfgGlob : JSEntry :=
  { name := some "g", transport := some "stdio", command := some "gc",
    scope := some "global" }

/-- A disk whose workspace document still contains the stale entry. -/
def diskStale : Disk := { workspaceDoc := some [("old", staleEnt)] }

/-- A cached auth token. -/
def remTok : AuthToken := { accessToken := "tok" }

/-- A server whose token is cached in `stRem`. -/
def cfgRem : JSEntry :=
  { name := some "a", transport := some "stdio", command := some "c",
    scope := some "workspace" }

/-- A state holding server `a` and a cached token for it. -/
def stRem : ManagerState :=
  { servers := [("a", cfgRem)], authTokens := [("a", remTok)] }

/-- A server without any AuthConfig. -/
def cfgNoAuth : JSEntry :=
  { name := some "a", transport := some "stdio", scope := some "workspace" }

/-- A state holding a server without auth and an unrelated token. -/
def stNoAuth : ManagerState :=
  { servers := [("a", cfgNoAuth)], authTokens := [("b", remTok)] }

/-- A basic AuthConfig. -/
def aBasic : AuthConfig := { type := "basic" }

/-- A server with basic auth. -/
def srvBasic : JSEntry :=
  { name := some "s", transport := some "stdio", scope := some "workspace",
    auth := some aBasic }

/-- A state holding the basic-auth server. -/
def stBasic : ManagerState := { servers := [("s", srvBasic)] }

/-- An oauth2 AuthConfig with `clientId` set but no `provider`. -/
def aOauthBad : AuthConfig := { type := "oauth2", clientId := some "cid" }

/-- A server carrying `aOauthBad`. -/
def srvOauthBad : JSEntry :=
  { name := some "s", transport := some "http", url := some "http://x",
    scope := some "workspace", auth := some aOauthBad }

/-- A state holding `srvOauthBad`. -/
def stOauthBad : ManagerState := { servers := [("s", srvOauthBad)] }

/-- An oauth2 AuthConfig with both `provider` and `clientId` set. -/
def aOauthOk : AuthConfig :=
  { type := "oauth2", provider := some "github", clientId := some "cid" }

/-- A server carrying `aOauthOk`. -/
def srvOauthOk : JSEntry :=
  { name := some "s", transport := some "http", url := some "http://x",
    scope := some "workspace", auth := some aOauthOk }

/-- A state holding `srvOauthOk`. -/
def stOauthOk : ManagerState := { servers := [("s", srvOauthOk)] }

/-- A workspace server that has an AuthConfig in memory. -/
def cfgPersist : JSEntry :=
  { name := some "a", transport := some "stdio", command := some "c",
    scope := some "workspace", auth := some aBasic }

/-- A one-server map used for the persistence witness. -/
def mPersist : ServersMap := [("a", cfgPersist)]

/-- An AuthConfig whose kind is outside the three dispatched kinds. -/
def aWeird : AuthConfig := { type := "custom" }

/-- A server carrying `aWeird`. -/
def srvWeird : JSEntry :=
  { name := some "s", transport := some "stdio", scope := some "workspace",
    auth := some aWeird }

/-- A state holding `srvWeird` and a cached token. -/
def stWeird : ManagerState :=
  { servers := [("s", srvWeird)], authTokens := [("s", remTok)] }

/-! Map lemmas. -/

theorem mapGet_set_self {α : Type} (m : List (String × α)) (k : String) (v : α) :
    mapGet (mapSet m k v) k = some v := by
  induction m with
  | nil => simp [mapSet, mapGet]
  | cons p rest ih =>
    by_cases h : p.1 = k
    · simp [mapSet, mapGet, h]
    · simp [mapSet, mapGet, h, ih]

theorem mapGet_set_ne {α : Type} (m : List (String × α)) (k k' : String) (v : α)
    (h : k ≠ k') : mapGet (mapSet m k v) k' = mapGet m k' := by
  induction m with
  | nil => simp [mapSet, mapGet, h]
  | cons p rest ih =>
    by_cases hp : p.1 = k
    · have hp' : p.1 ≠ k' := by rw [hp]; exact h
      simp [mapSet, mapGet, hp, h, hp']
    · by_cases hk : p.1 = k' <;> simp [mapSet, mapGet, hp, hk, Ne.symm h, ih]

theorem mapGet_eq_none_iff {α : Type} (m : List (String × α)) (k : String) :
    mapGet m k = none ↔ k ∉ m.map Prod.fst := by
  induction m with
  | nil => simp [mapGet]
  | cons p rest ih =>
    by_cases h : p.1 = k
    · simp [mapGet, h]
    · simp [mapGet, h, ih, Ne.symm h]

theorem mapGet_mem_keys {α : Type} (m : List (String × α)) (k : String) (v : α)
    (h : mapGet m k = some v) : k ∈ m.map Prod.fst := by
  by_contra hk
  rw [(mapGet_eq_none_iff m k).mpr hk] at h
  cases h

theorem mapHas_of_get {α : Type} (m : List (String × α)) (k : String) (v : α)
    (h : mapGet m k = some v) : mapHas m k = true := by
  rw [mapHas, h]; rfl

theorem mapGet_set_cases {α : Type} (m : List (String × α)) (k k' : String) (v w : α)
    (h : mapGet (mapSet m k v) k' = some w) : w = v ∨ mapGet m k' = some w := by
  by_cases hk : k = k'
  · subst hk
    rw [mapGet_set_self] at h
    exact Or.inl (Option.some.inj h).symm
  · rw [mapGet_set_ne m k k' v hk] at h
    exact Or.inr h

theorem mapSet_keys {α : Type} (m : List (String × α)) (k : String) (v : α) :
    (mapSet m k v).map Prod.fst =
      if k ∈ m.map Prod.fst then m.map Prod.fst else m.map Prod.fst ++ [k] := by
  induction m with
  | nil => simp [mapSet]
  | cons p rest ih =>
    by_cases h : p.1 = k
    · simp [mapSet, h]
    · by_cases hm : k ∈ rest.map Prod.fst <;>
        simp [mapSet, h, ih, hm, Ne.symm h]

theorem mapSet_keys_nodup {α : Type} (m : List (String × α)) (k : String) (v : α)
    (h : (m.map Prod.fst).Nodup) : ((mapSet m k v).map Prod.fst).Nodup := by
  rw [mapSet_keys]
  by_cases hm : k ∈ m.map Prod.fst
  · simpa [hm] using h
  · rw [if_neg hm, ← List.concat_eq_append]
    exact List.Nodup.concat hm h

theorem mapGet_delete_self {α : Type} (m : List (String × α)) (k : String) :
    mapGet (mapDelete m k) k = none := by
  induction m with
  | nil => simp [mapDelete, mapGet]
  | cons p rest ih =>
    by_cases h : p.1 = k <;> simp_all [mapDelete, mapGet, h]

theorem count_one_of_get {α : Type} (m : List (String × α)) (k : String) (v : α)
    (hnd : (m.map Prod.fst).Nodup) (h : mapGet m k = some v) :
    (m.map Prod.fst).count k = 1 :=
  List.count_eq_one_of_mem hnd (mapGet_mem_keys m k v h)

/-! Lemmas about the two load phases. -/

theorem loadScope_cons (sc : String) (q : String × JSEntry) (rest : ScopeDoc)
    (m0 : ServersMap) :
    loadScopeEntries sc (q :: rest) m0 =
      loadScopeEntries sc rest (mapSet m0 q.1 (loadEntry sc q.2)) := rfl

theorem loadGlobal_cons (q : String × JSEntry) (rest : ScopeDoc) (m0 : ServersMap) :
    loadGlobalEntries (q :: rest) m0 =
      loadGlobalEntries rest
        (if mapHas m0 q.1 then m0 else mapSet m0 q.1 (loadEntry "global" q.2)) := rfl

theorem loadScope_get_not_mem (sc : String) (doc : ScopeDoc) (m0 : ServersMap)
    (k : String) (h : k ∉ doc.map Prod.fst) :
    mapGet (loadScopeEntries sc doc m0) k = mapGet m0 k := by
  induction doc generalizing m0 with
  | nil => rfl
  | cons q rest ih =>
    rw [List.map_cons, List.mem_cons] at h
    push_neg at h
    rw [loadScope_cons, ih _ h.2, mapGet_set_ne _ _ _ _ (fun e => h.1 e.symm)]

theorem loadScope_get_mem (sc : String) (doc : ScopeDoc) (m0 : ServersMap)
    (k : String) (e : JSEntry)
    (hnd : (doc.map Prod.fst).Nodup) (hmem : (k, e) ∈ doc) :
    mapGet (loadScopeEntries sc doc m0) k = some (loadEntry sc e) := by
  induction doc generalizing m0 with
  | nil => cases hmem
  | cons q rest ih =>
    rw [List.map_cons, List.nodup_cons] at hnd
    rcases List.mem_cons.mp hmem with heq | hrest
    · have hk : k ∉ rest.map Prod.fst := by
        rw [← heq] at hnd; exact hnd.1
      rw [loadScope_cons, loadScope_get_not_mem sc rest _ k hk, ← heq, mapGet_set_self]
    · exact loadScope_cons sc q rest m0 ▸ ih _ hnd.2 hrest

theorem loadGlobal_get_some (doc : ScopeDoc) (m0 : ServersMap) (k : String) (v : JSEntry)
    (h : mapGet m0 k = some v) :
    mapGet (loadGlobalEntries doc m0) k = some v := by
  induction doc generalizing m0 with
  | nil => exact h
  | cons q rest ih =>
    rw [loadGlobal_cons]
    by_cases hq : mapHas m0 q.1 = true
    · rw [if_pos hq]; exact ih m0 h
    · rw [if_neg hq]
      apply ih
      have hne : q.1 ≠ k := by
        intro hkq
        exact hq (hkq ▸ mapHas_of_get m0 k v h)
      rw [mapGet_set_ne _ _ _ _ hne]
      exact h

theorem loadScope_keys_nodup (sc : String) (doc : ScopeDoc) (m0 : ServersMap)
    (h : (m0.map Prod.fst).Nodup) :
    ((loadScopeEntries sc doc m0).map Prod.fst).Nodup := by
  induction doc generalizing m0 with
  | nil => exact h
  | cons q rest ih =>
    rw [loadScope_cons]
    exact ih _ (mapSet_keys_nodup _ _ _ h)

theorem loadGlobal_keys_nodup (doc : ScopeDoc) (m0 : ServersMap)
    (h : (m0.map Prod.fst).Nodup) :
    ((loadGlobalEntries doc m0).map Prod.fst).Nodup := by
  induction doc generalizing m0 with
  | nil => exact h
  | cons q rest ih =>
    rw [loadGlobal_cons]
    by_cases hq : mapHas m0 q.1 = true
    · rw [if_pos hq]; exact ih m0 h
    · rw [if_neg hq]; exact ih _ (mapSet_keys_nodup _ _ _ h)

/-- Every value reachable in the map built by the workspace phase is
either a tagged inserted entry or was already reachable. -/
theorem loadScope_get_src (sc : String) (doc : ScopeDoc) (m0 : ServersMap)
    (k : String) (v : JSEntry)
    (h : mapGet (loadScopeEntries sc doc m0) k = some v) :
    (∃ q ∈ doc, v = loadEntry sc q.2) ∨ mapGet m0 k = some v := by
  induction doc generalizing m0 with
  | nil => exact Or.inr h
  | cons q rest ih =>
    rw [loadScope_cons] at h
    rcases ih _ h with ⟨r, hr, hv⟩ | hget
    · exact Or.inl ⟨r, List.mem_cons_of_mem q hr, hv⟩
    · rcases mapGet_set_cases m0 q.1 k (loadEntry sc q.2) v hget with hv | hold
      · exact Or.inl ⟨q, List.mem_cons_self q rest, hv⟩
      · exact Or.inr hold

/-- Every value reachable in the map built by the global phase is either
a tagged inserted entry or was already reachable. -/
theorem loadGlobal_get_src (doc : ScopeDoc) (m0 : ServersMap)
    (k : String) (v : JSEntry)
    (h : mapGet (loadGlobalEntries doc m0) k = some v) :
    (∃ q ∈ doc, v = loadEntry "global" q.2) ∨ mapGet m0 k = some v := by
  induction doc generalizing m0 with
  | nil => exact Or.inr h
  | cons q rest ih =>
    rw [loadGlobal_cons] at h
    rcases ih _ h with ⟨r, hr, hv⟩ | hget
    · exact Or.inl ⟨r, List.mem_cons_of_mem q hr, hv⟩
    · by_cases hq : mapHas m0 q.1 = true
      · rw [if_pos hq] at hget; exact Or.inr hget
      · rw [if_neg hq] at hget
        rcases mapGet_set_cases m0 q.1 k (loadEntry "global" q.2) v hget with hv | hold
        · exact Or.inl ⟨q, List.mem_cons_self q rest, hv⟩
        · exact Or.inr hold

/-! Lemmas about partitioning and saving. -/

theorem partition_fold (m : ServersMap) (acc : ScopeDoc × ScopeDoc) :
    m.foldl
      (fun acc p =>
        if p.2.scope = some "workspace" then (acc.1 ++ [(p.1, persistEntry p.2)], acc.2)
        else (acc.1, acc.2 ++ [(p.1, persistEntry p.2)]))
      acc = (acc.1 ++ wsOf m, acc.2 ++ glOf m) := by
  induction m generalizing acc with
  | nil => simp [wsOf, glOf]
  | cons q rest ih =>
    by_cases h : q.2.scope = some "workspace" <;>
      simp [wsOf, glOf, List.foldl_cons, h, ih, List.filter_cons]

theorem partitionServers_eq (m : ServersMap) :
    partitionServers m = (wsOf m, glOf m) := by
  rw [partitionServers, partition_fold]
  simp

theorem saveServers_docs (m : ServersMap) (d : Disk) :
    (saveServers m d).workspaceDoc =
      (if (wsOf m).length > 0 then some (wsOf m) else d.workspaceDoc) ∧
    (saveServers m d).globalDoc =
      (if (glOf m).length > 0 then some (glOf m) else d.globalDoc) := by
  rw [saveServers, partitionServers_eq]
  by_cases hw : (wsOf m).length > 0 <;> by_cases hg : (glOf m).length > 0 <;>
    simp [hw, hg]

theorem persistEntry_fields (c : JSEntry) :
    (persistEntry c).auth = none ∧ (persistEntry c).name = none ∧
    (persistEntry c).scope = none ∧ (persistEntry c).transport = none := by
  rw [persistEntry]
  by_cases h : truthy c.url = true <;> simp [h]

theorem wsOf_keys_nodup (m : ServersMap) (hnd : (m.map Prod.fst).Nodup) :
    ((wsOf m).map Prod.fst).Nodup := by
  rw [wsOf, List.map_map]
  have h : (Prod.fst ∘ fun p : String × JSEntry => (p.1, persistEntry p.2)) = Prod.fst := by
    funext p; rfl
  rw [h]
  exact hnd.sublist (List.Sublist.map Prod.fst (List.filter_sublist m))

theorem wsOf_keys_eq (m : ServersMap) :
    (wsOf m).map Prod.fst =
      (m.filter (fun p => p.2.scope = some "workspace")).map Prod.fst := by
  rw [wsOf, List.map_map]
  have h : (Prod.fst ∘ fun p : String × JSEntry => (p.1, persistEntry p.2)) = Prod.fst := by
    funext p; rfl
  rw [h]

theorem glOf_keys_eq (m : ServersMap) :
    (glOf m).map Prod.fst =
      (m.filter (fun p => !(p.2.scope = some "workspace" : Bool))).map Prod.fst := by
  rw [glOf, List.map_map]
  have h : (Prod.fst ∘ fun p : String × JSEntry => (p.1, persistEntry p.2)) = Prod.fst := by
    funext p; rfl
  rw [h]

theorem glOf_keys_nodup (m : ServersMap) (hnd : (m.map Prod.fst).Nodup) :
    ((glOf m).map Prod.fst).Nodup := by
  rw [glOf_keys_eq]
  exact hnd.sublist (List.Sublist.map Prod.fst (List.filter_sublist m))

theorem mapGet_of_mem_nodup {α : Type} (m : List (String × α)) (k : String) (e : α)
    (hnd : (m.map Prod.fst).Nodup) (hmem : (k, e) ∈ m) : mapGet m k = some e := by
  induction m with
  | nil => cases hmem
  | cons q rest ih =>
    rw [List.map_cons, List.nodup_cons] at hnd
    rcases List.mem_cons.mp hmem with heq | hrest
    · rw [← heq]
      simp [mapGet]
    · have hkrest : k ∈ rest.map Prod.fst := List.mem_map_of_mem Prod.fst hrest
      have hq1 : q.1 ≠ k := fun h => hnd.1 (h ▸ hkrest)
      simp only [mapGet, if_neg hq1]
      exact ih hnd.2 hrest

theorem mem_keys_of_mapHas {α : Type} (m : List (String × α)) (k : String)
    (h : mapHas m k = true) : k ∈ m.map Prod.fst := by
  by_contra hk
  rw [mapHas, (mapGet_eq_none_iff m k).mpr hk] at h
  cases h

theorem loadGlobal_get_not_mem (doc : ScopeDoc) (m0 : ServersMap) (k : String)
    (h : k ∉ doc.map Prod.fst) :
    mapGet (loadGlobalEntries doc m0) k = mapGet m0 k := by
  induction doc generalizing m0 with
  | nil => rfl
  | cons q rest ih =>
    rw [List.map_cons, List.mem_cons] at h
    push_neg at h
    rw [loadGlobal_cons]
    by_cases hh : mapHas m0 q.1 = true
    · rw [if_pos hh]
      exact ih m0 h.2
    · rw [if_neg hh, ih _ h.2, mapGet_set_ne _ _ _ _ (fun e => h.1 e.symm)]

/-- A global document entry whose name is neither already loaded nor
duplicated in the document is inserted, tagged with its scope. -/
theorem loadGlobal_get_mem (doc : ScopeDoc) (m0 : ServersMap) (k : String) (e : JSEntry)
    (hnd : (doc.map Prod.fst).Nodup) (hmem : (k, e) ∈ doc)
    (h0 : mapHas m0 k = false) :
    mapGet (loadGlobalEntries doc m0) k = some (loadEntry "global" e) := by
  induction doc generalizing m0 with
  | nil => cases hmem
  | cons q rest ih =>
    rw [List.map_cons, List.nodup_cons] at hnd
    rcases List.mem_cons.mp hmem with heq | hrest
    · have hk1 : q.1 = k := by rw [← heq]
      have hk2 : q.2 = e := by rw [← heq]
      have hne : ¬ mapHas m0 q.1 = true := by
        rw [hk1, h0]
        exact Bool.false_ne_true
      have hknotin : k ∉ rest.map Prod.fst := hk1 ▸ hnd.1
      rw [loadGlobal_cons, if_neg hne, loadGlobal_get_not_mem rest _ k hknotin,
        hk1, hk2, mapGet_set_self]
    · have hkrest : k ∈ rest.map Prod.fst := List.mem_map_of_mem Prod.fst hrest
      have hq1 : q.1 ≠ k := fun h => hnd.1 (h ▸ hkrest)
      rw [loadGlobal_cons]
      by_cases hh : mapHas m0 q.1 = true
      · rw [if_pos hh]
        exact ih m0 hnd.2 hrest h0
      · rw [if_neg hh]
        apply ih _ hnd.2 hrest
        rw [mapHas, mapGet_set_ne m0 q.1 k _ hq1]
        exact h0

theorem mem_keys_mapSet {α : Type} (m : List (String × α)) (k a : String) (v : α) :
    a ∈ (mapSet m k v).map Prod.fst ↔ a ∈ m.map Prod.fst ∨ a = k := by
  rw [mapSet_keys]
  by_cases h : k ∈ m.map Prod.fst
  · rw [if_pos h]
    constructor
    · exact Or.inl
    · rintro (ha | rfl)
      · exact ha
      · exact h
  · rw [if_neg h]
    simp [List.mem_append]

theorem mem_keys_loadScope (sc : String) (doc : ScopeDoc) (m0 : ServersMap) (k : String) :
    k ∈ (loadScopeEntries sc doc m0).map Prod.fst ↔
      k ∈ m0.map Prod.fst ∨ k ∈ doc.map Prod.fst := by
  induction doc generalizing m0 with
  | nil => simp [loadScopeEntries]
  | cons q rest ih =>
    rw [loadScope_cons, ih, mem_keys_mapSet, List.map_cons, List.mem_cons]
    tauto

theorem mem_keys_loadGlobal (doc : ScopeDoc) (m0 : ServersMap) (k : String) :
    k ∈ (loadGlobalEntries doc m0).map Prod.fst ↔
      k ∈ m0.map Prod.fst ∨ k ∈ doc.map Prod.fst := by
  induction doc generalizing m0 with
  | nil => simp [loadGlobalEntries]
  | cons q rest ih =>
    rw [loadGlobal_cons, List.map_cons, List.mem_cons]
    by_cases hh : mapHas m0 q.1 = true
    · rw [if_pos hh, ih]
      have hq : q.1 ∈ m0.map Prod.fst := mem_keys_of_mapHas m0 q.1 hh
      constructor
      · rintro (h | h)
        · exact Or.inl h
        · exact Or.inr (Or.inr h)
      · rintro (h | rfl | h)
        · exact Or.inl h
        · exact Or.inl hq
        · exact Or.inr h
    · rw [if_neg hh, ih, mem_keys_mapSet]
      tauto

theorem save_wsdoc_fresh (m : ServersMap) :
    ((saveServers m {}).workspaceDoc).getD [] = wsOf m := by
  by_cases hl : (wsOf m).length > 0
  · rw [(saveServers_docs m {}).1, if_pos hl, Option.getD_some]
  · rw [(saveServers_docs m {}).1, if_neg hl,
      List.eq_nil_of_length_eq_zero (Nat.eq_zero_of_not_pos hl)]
    rfl

theorem save_gldoc_fresh (m : ServersMap) :
    ((saveServers m {}).globalDoc).getD [] = glOf m := by
  by_cases hl : (glOf m).length > 0
  · rw [(saveServers_docs m {}).2, if_pos hl, Option.getD_some]
  · rw [(saveServers_docs m {}).2, if_neg hl,
      List.eq_nil_of_length_eq_zero (Nat.eq_zero_of_not_pos hl)]
    rfl

theorem roundTrip_eq (m : ServersMap) :
    roundTrip m = loadGlobalEntries (glOf m) (loadScopeEntries "workspace" (wsOf m) []) := by
  show loadServers (saveServers m {}).workspaceDoc (saveServers m {}).globalDoc = _
  rw [loadServers, save_wsdoc_fresh, save_gldoc_fresh]

/-- The name of an entry with a non-workspace scope never appears in the
workspace partition (keys are unique in a JavaScript map). -/
theorem not_mem_wsOf_keys (m : ServersMap) (n : String) (c : JSEntry)
    (hnd : (m.map Prod.fst).Nodup) (hmem : (n, c) ∈ m)
    (hsc : ¬ c.scope = some "workspace") : n ∉ (wsOf m).map Prod.fst := by
  intro hn
  rw [wsOf_keys_eq] at hn
  rcases List.mem_map.mp hn with ⟨p, hp, hp1⟩
  have hpm := (List.mem_filter.mp hp).1
  have hps : p.2.scope = some "workspace" := by
    have := (List.mem_filter.mp hp).2
    simpa using this
  have hpe : (n, p.2) = p := by rw [← hp1]
  have h1 : mapGet m n = some c := mapGet_of_mem_nodup m n c hnd hmem
  have h2 : mapGet m n = some p.2 := mapGet_of_mem_nodup m n p.2 hnd (hpe ▸ hpm)
  rw [h1] at h2
  exact hsc ((Option.some.inj h2) ▸ hps)

/-- Every name of the in-memory map lands in exactly one partition, and
the partitions introduce no new name. -/
theorem mem_partition_keys_iff (m : ServersMap) (a : String) :
    (a ∈ (wsOf m).map Prod.fst ∨ a ∈ (glOf m).map Prod.fst) ↔ a ∈ m.map Prod.fst := by
  rw [wsOf_keys_eq, glOf_keys_eq]
  constructor
  · rintro (h | h) <;>
    · rcases List.mem_map.mp h with ⟨p, hp, hp1⟩
      exact hp1 ▸ List.mem_map_of_mem Prod.fst (List.mem_filter.mp hp).1
  · intro h
    rcases List.mem_map.mp h with ⟨p, hp, hp1⟩
    by_cases hsc : p.2.scope = some "workspace"
    · exact Or.inl (hp1 ▸ List.mem_map_of_mem Prod.fst
        (List.mem_filter.mpr ⟨hp, by simp [hsc]⟩))
    · exact Or.inr (hp1 ▸ List.mem_map_of_mem Prod.fst
        (List.mem_filter.mpr ⟨hp, by simp [hsc]⟩))

/-- C1: given a workspace document entry and a global document entry
sharing the name `n`, the merged map after load has exactly one entry
keyed `n`, and its value is the workspace entry tagged with its scope —
no field of the shadowed global entry appears. -/
theorem claim1_workspace_shadows_global
    (wsDoc glDoc : ScopeDoc) (n : String) (w g : JSEntry)
    (hnd : (wsDoc.map Prod.fst).Nodup)
    (hw : (n, w) ∈ wsDoc) (_hg : (n, g) ∈ glDoc) :
    mapGet (loadServers (some wsDoc) (some glDoc)) n = some (loadEntry "workspace" w) ∧
    ((loadServers (some wsDoc) (some glDoc)).map Prod.fst).count n = 1 := by
  have h1 : mapGet (loadScopeEntries "workspace" wsDoc []) n = some (loadEntry "workspace" w) :=
    loadScope_get_mem "workspace" wsDoc [] n w hnd hw
  have h2 : mapGet (loadServers (some wsDoc) (some glDoc)) n = some (loadEntry "workspace" w) := by
    rw [loadServers, Option.getD_some, Option.getD_some]
    exact loadGlobal_get_some glDoc _ n _ h1
  refine ⟨h2, ?_⟩
  have hnodup : ((loadServers (some wsDoc) (some glDoc)).map Prod.fst).Nodup := by
    rw [loadServers, Option.getD_some, Option.getD_some]
    exact loadGlobal_keys_nodup glDoc _
      (loadScope_keys_nodup "workspace" wsDoc [] (by simp))
  exact count_one_of_get _ n _ hnodup h2

/-- C1 witness: concrete documents sharing the name `a`. -/
theorem claim1_witness :
    mapGet (loadServers (some [("a", wEnt)]) (some [("a", gEnt)])) "a" =
      some (loadEntry "workspace" wEnt) ∧
    ((loadServers (some [("a", wEnt)]) (some [("a", gEnt)])).map Prod.fst).count "a" = 1 :=
  claim1_workspace_shadows_global [("a", wEnt)] [("a", gEnt)] "a" wEnt gEnt
    (by decide) (by decide) (by decide)

/-- C2 counterexample: `MCPServerManager.addServer` called with a config
whose name `a` is already registered does not fail: it overwrites the
existing entry and rewrites the persisted documents. -/
theorem claim2_counterexample :
    (addServer stDup cfgDupNew).servers ≠ stDup.servers ∧
    (addServer stDup cfgDupNew).servers = [("a", cfgDupNew)] ∧
    (addServer stDup cfgDupNew).disk ≠ stDup.disk := by decide

/-- C2 amended: duplicate or empty names are rejected only by the
interactive command through `validateInput`, which returns an error
message exactly for an empty or blank name or a name already known to
the manager; `MCPServerManager.addServer` itself performs no validation:
it unconditionally stores the config under its name, persists both
documents, and leaves the token cache alone. -/
theorem claim2_amended :
    (∀ (st : ManagerState) (v : String),
      (validateInput st v).isSome = true ↔
        (v = "" ∨ v.trim.length = 0 ∨ (getServer st v).isSome = true)) ∧
    (∀ (st : ManagerState) (c : JSEntry),
      mapGet (addServer st c).servers (c.name.getD "") = some c ∧
      (addServer st c).disk = saveServers (mapSet st.servers (c.name.getD "") c) st.disk ∧
      (addServer st c).authTokens = st.authTokens) := by
  constructor
  · intro st v
    rw [validateInput]
    by_cases h1 : v = "" ∨ v.trim.length = 0
    · simp only [if_pos h1, Option.isSome_some, true_iff]
      rcases h1 with h | h
      · exact Or.inl h
      · exact Or.inr (Or.inl h)
    · by_cases h2 : (getServer st v).isSome = true <;>
        simp [h1, h2, not_or.mp h1]
  · intro st c
    exact ⟨mapGet_set_self _ _ _, rfl, rfl⟩

/-- C3 counterexample: a one-server map does not survive the
save/load round trip: `transport` comes back only under the field
`type`, and the unset `args`/`env` materialise as empty. -/
theorem claim3_counterexample :
    roundTrip [("a", cfgRT)] ≠ [("a", cfgRT)] ∧
    (mapGet (roundTrip [("a", cfgRT)]) "a").bind JSEntry.transport = none ∧
    cfgRT.transport = some "stdio" ∧
    (mapGet (roundTrip [("a", cfgRT)]) "a").bind JSEntry.type = some "stdio" ∧
    (mapGet (roundTrip [("a", cfgRT)]) "a").bind JSEntry.args = some [] ∧
    cfgRT.args = none := by decide

/-- C3 amended: the round trip maps every entry of the written map —
workspace-scoped or not — to the serialised form of that entry re-tagged
with the scope of the document it was read from (`"workspace"` for
workspace-scoped entries, `"global"` for all others), and it preserves
the key set; but the values are not structurally equal to the originals:
`command`, the values of `args`/`env` (defaulting to empty when unset)
and a truthy `url` survive, while `transport` is stored under the field
`type` and not restored, and `name` and `auth` are dropped. -/
theorem claim3_roundtrip (m : ServersMap) (hnd : (m.map Prod.fst).Nodup) :
    (∀ (n : String) (c : JSEntry), (n, c) ∈ m → c.scope = some "workspace" →
      mapGet (roundTrip m) n = some (loadEntry "workspace" (persistEntry c))) ∧
    (∀ (n : String) (c : JSEntry), (n, c) ∈ m → ¬ c.scope = some "workspace" →
      mapGet (roundTrip m) n = some (loadEntry "global" (persistEntry c))) ∧
    ((roundTrip m).map Prod.fst).Perm (m.map Prod.fst) := by
  refine ⟨?_, ?_, ?_⟩
  · intro n c hmem hsc
    have hmemw : (n, persistEntry c) ∈ wsOf m := by
      rw [wsOf]
      exact List.mem_map_of_mem _ (List.mem_filter.mpr ⟨hmem, by simp [hsc]⟩)
    have hnd2 : ((wsOf m).map Prod.fst).Nodup := wsOf_keys_nodup m hnd
    have h1 : mapGet (loadScopeEntries "workspace" (wsOf m) []) n =
        some (loadEntry "workspace" (persistEntry c)) :=
      loadScope_get_mem "workspace" (wsOf m) [] n (persistEntry c) hnd2 hmemw
    rw [roundTrip_eq]
    exact loadGlobal_get_some _ _ n _ h1
  · intro n c hmem hsc
    have hmemg : (n, persistEntry c) ∈ glOf m := by
      rw [glOf]
      exact List.mem_map_of_mem _ (List.mem_filter.mpr ⟨hmem, by simp [hsc]⟩)
    have hnd2 : ((glOf m).map Prod.fst).Nodup := glOf_keys_nodup m hnd
    have hnotws : n ∉ (wsOf m).map Prod.fst := not_mem_wsOf_keys m n c hnd hmem hsc
    have h1 : mapGet (loadScopeEntries "workspace" (wsOf m) []) n = none := by
      rw [loadScope_get_not_mem "workspace" (wsOf m) [] n hnotws]
      rfl
    have h0 : mapHas (loadScopeEntries "workspace" (wsOf m) []) n = false := by
      rw [mapHas, h1]
      rfl
    rw [roundTrip_eq]
    exact loadGlobal_get_mem (glOf m) _ n (persistEntry c) hnd2 hmemg h0
  · have hrt : ((roundTrip m).map Prod.fst).Nodup := by
      rw [roundTrip_eq]
      exact loadGlobal_keys_nodup _ _ (loadScope_keys_nodup "workspace" (wsOf m) [] (by simp))
    rw [List.perm_ext_iff_of_nodup hrt hnd]
    intro a
    rw [roundTrip_eq, mem_keys_loadGlobal, mem_keys_loadScope, ← mem_partition_keys_iff m a]
    simp

/-- C3 witness: the amended round-trip law at a concrete mixed map: the
workspace entry, the global entry, and the key set. -/
theorem claim3_witness :
    mapGet (roundTrip mRT) "a" = some (loadEntry "workspace" (persistEntry cfgRT)) ∧
    mapGet (roundTrip mRT) "b" = some (loadEntry "global" (persistEntry cfgRTG)) ∧
    ((roundTrip mRT).map Prod.fst).Perm (mRT.map Prod.fst) :=
  ⟨(claim3_roundtrip mRT (by decide)).1 "a" cfgRT (by decide) (by decide),
   (claim3_roundtrip mRT (by decide)).2.1 "b" cfgRTG (by decide) (by decide),
   (claim3_roundtrip mRT (by decide)).2.2⟩

/-- C4 counterexample: with only a global server in memory, the
workspace partition is empty and `saveServers` leaves the previous
workspace document untouched, so its stale entry lingers. -/
theorem claim4_counterexample :
    (saveServers [("g", cfgGlob)] diskStale).workspaceDoc = some [("old", staleEnt)] ∧
    mapGet ((saveServers [("g", cfgGlob)] diskStale).workspaceDoc.getD []) "old" =
      some staleEnt := by decide

/-- C4 amended: `saveServers` re-derives both documents by partitioning
the in-memory entries by their scope field, but a scope document is
rewritten only when its partition is non-empty; a scope left with zero
entries keeps its previous on-disk contents. -/
theorem claim4_amended :
    ∀ (m : ServersMap) (d : Disk),
      partitionServers m = (wsOf m, glOf m) ∧
      (saveServers m d).workspaceDoc =
        (if (wsOf m).length > 0 then some (wsOf m) else d.workspaceDoc) ∧
      (saveServers m d).globalDoc =
        (if (glOf m).length > 0 then some (glOf m) else d.globalDoc) :=
  fun m d => ⟨partitionServers_eq m, (saveServers_docs m d).1, (saveServers_docs m d).2⟩

/-- C5 counterexample: after removing server `a`, its cached auth token
is still returned by `getAuthToken`. -/
theorem claim5_counterexample :
    getAuthToken (removeServer stRem "a") "a" = some remTok ∧
    getServer (removeServer stRem "a") "a" = none := by decide

/-- C5 amended: `removeServer` deletes the server entry and persists the
documents, but does not cascade to the token cache: the token maps are
untouched and `getAuthToken(name)` answers exactly as before. -/
theorem claim5_amended :
    ∀ (st : ManagerState) (n : String),
      (removeServer st n).authTokens = st.authTokens ∧
      getAuthToken (removeServer st n) n = getAuthToken st n ∧
      getServer (removeServer st n) n = none :=
  fun st n => ⟨rfl, rfl, mapGet_delete_self st.servers n⟩

/-- C6: when the named server is absent or has no AuthConfig,
authentication fails immediately: false is returned, no prompt is
shown, and neither the in-memory nor the persisted token cache is
written. -/
theorem claim6_no_auth_fails (st : ManagerState) (n : String)
    (inputs : List (Option String))
    (h : (mapGet st.servers n).bind JSEntry.auth = none) :
    authenticateServer st n inputs = ⟨false, st.authTokens, none, []⟩ := by
  cases hm : mapGet st.servers n with
  | none => simp [authenticateServer, hm]
  | some srv =>
    rw [hm] at h
    have h2 : srv.auth = none := h
    simp [authenticateServer, hm, h2]

/-- C6 witness: a server without auth and an absent server. -/
theorem claim6_witness :
    authenticateServer stNoAuth "a" [some "x"] = ⟨false, stNoAuth.authTokens, none, []⟩ ∧
    authenticateServer stNoAuth "zzz" [] = ⟨false, stNoAuth.authTokens, none, []⟩ :=
  ⟨claim6_no_auth_fails stNoAuth "a" [some "x"] (by decide),
   claim6_no_auth_fails stNoAuth "zzz" [] (by decide)⟩

/-- C7: basic auth prompts for a username then a password; with both
supplied non-empty it stores base64 of `username:password` with token
type Basic and returns true; cancelling either prompt returns false with
no token stored and no save. -/
theorem claim7_basic (st : ManagerState) (n : String) (srv : JSEntry) (a : AuthConfig)
    (hs : mapGet st.servers n = some srv) (ha : srv.auth = some a)
    (ht : a.type = "basic") :
    (∀ u p : String, u ≠ "" → p ≠ "" →
      authenticateServer st n [some u, some p] =
        ⟨true,
         mapSet st.authTokens n
           { accessToken := base64Encode (u ++ ":" ++ p), tokenType := some "Basic" },
         some (mapSet st.authTokens n
           { accessToken := base64Encode (u ++ ":" ++ p), tokenType := some "Basic" }),
         [usernamePrompt n, passwordPrompt n]⟩) ∧
    (∀ i1 i2 : Option String, i1.getD "" = "" →
      authenticateServer st n [i1, i2] =
        ⟨false, st.authTokens, none, [usernamePrompt n]⟩) ∧
    (∀ u : String, u ≠ "" → ∀ i2 : Option String, i2.getD "" = "" →
      authenticateServer st n [some u, i2] =
        ⟨false, st.authTokens, none, [usernamePrompt n, passwordPrompt n]⟩) := by
  refine ⟨?_, ?_, ?_⟩
  · intro u p hu hp
    simp [authenticateServer, hs, ha, ht, authenticateBasic, List.getD, hu, hp]
  · intro i1 i2 h1
    simp [authenticateServer, hs, ha, ht, authenticateBasic, List.getD, h1]
  · intro u hu i2 h2
    simp [authenticateServer, hs, ha, ht, authenticateBasic, List.getD, hu, h2]

/-- C7 witness: username `u` and password `p` give the Basic token
`dTpw` (base64 of `u:p`); cancelling the username prompt stores
nothing. -/
theorem claim7_witness :
    base64Encode ("u" ++ ":" ++ "p") = "dTpw" ∧
    authenticateServer stBasic "s" [some "u", some "p"] =
      ⟨true, [("s", { accessToken := "dTpw", tokenType := some "Basic" })],
       some [("s", { accessToken := "dTpw", tokenType := some "Basic" })],
       [usernamePrompt "s", passwordPrompt "s"]⟩ ∧
    authenticateServer stBasic "s" [none, some "p"] =
      ⟨false, [], none, [usernamePrompt "s"]⟩ := by
  refine ⟨by decide, ?_, ?_⟩
  · rw [(claim7_basic stBasic "s" srvBasic aBasic (by decide) (by decide) (by decide)).1
      "u" "p" (by decide) (by decide)]
    decide
  · rw [(claim7_basic stBasic "s" srvBasic aBasic (by decide) (by decide) (by decide)).2.1
      none (some "p") (by decide)]
    decide

/-- C8 counterexample: for an oauth2 server whose AuthConfig has
`clientId` but no `provider`, authenticate does not prompt and does not
store a token: it returns false, although the claim promises a prompt
and success regardless of the optional fields. -/
theorem claim8_counterexample :
    (authenticateServer stOauthBad "s" [some "tok"]).success = false ∧
    (authenticateServer stOauthBad "s" [some "tok"]).prompts = [] ∧
    (authenticateServer stOauthBad "s" [some "tok"]).tokens = [] ∧
    (authenticateServer stOauthBad "s" [some "tok"]).savedTokens = none := by decide

/-- C8 amended: oauth2 authentication first requires both `provider`
and `clientId` to be truthy — if either is missing it returns false
without prompting or writing; when both are set, a single secret prompt
is issued and a supplied non-empty token is stored with token type
Bearer and true is returned (`scopes`, `tokenUrl`, `authUrl` remain
irrelevant). -/
theorem claim8_oauth (st : ManagerState) (n : String) (srv : JSEntry) (a : AuthConfig)
    (hs : mapGet st.servers n = some srv) (ha : srv.auth = some a)
    (ht : a.type = "oauth2") :
    ((truthy a.provider = false ∨ truthy a.clientId = false) →
      ∀ inputs : List (Option String),
        authenticateServer st n inputs = ⟨false, st.authTokens, none, []⟩) ∧
    (truthy a.provider = true → truthy a.clientId = true →
      ∀ t : String, t ≠ "" →
        authenticateServer st n [some t] =
          ⟨true, mapSet st.authTokens n { accessToken := t, tokenType := some "Bearer" },
           some (mapSet st.authTokens n { accessToken := t, tokenType := some "Bearer" }),
           [oauthPrompt n (a.provider.getD "")]⟩) ∧
    (truthy a.provider = true → truthy a.clientId = true →
      ∀ i : Option String, i.getD "" = "" →
        authenticateServer st n [i] =
          ⟨false, st.authTokens, none, [oauthPrompt n (a.provider.getD "")]⟩) := by
  refine ⟨?_, ?_, ?_⟩
  · intro hbad inputs
    rcases hbad with h | h <;>
      simp [authenticateServer, hs, ha, ht, authenticateOAuth2, h]
  · intro hp hc t hne
    simp [authenticateServer, hs, ha, ht, authenticateOAuth2, hp, hc, List.getD, hne]
  · intro hp hc i hi
    simp [authenticateServer, hs, ha, ht, authenticateOAuth2, hp, hc, List.getD, hi]

/-- C8 witness: the provider-less config is refused without a prompt,
and the fully configured one stores a Bearer token after one prompt. -/
theorem claim8_witness :
    authenticateServer stOauthBad "s" [some "tok"] = ⟨false, [], none, []⟩ ∧
    authenticateServer stOauthOk "s" [some "tok"] =
      ⟨true, [("s", { accessToken := "tok", tokenType := some "Bearer" })],
       some [("s", { accessToken := "tok", tokenType := some "Bearer" })],
       [oauthPrompt "s" "github"]⟩ := by
  constructor
  · rw [(claim8_oauth stOauthBad "s" srvOauthBad aOauthBad (by decide) (by decide)
      (by decide)).1 (Or.inl (by decide)) [some "tok"]]
    decide
  · rw [(claim8_oauth stOauthOk "s" srvOauthOk aOauthOk (by decide) (by decide)
      (by decide)).2.1 (by decide) (by decide) "tok" (by decide)]
    decide

/-- Every value reachable in the reloaded map carries no AuthConfig. -/
theorem roundTrip_get_auth_none (m : ServersMap) (k : String) (v : JSEntry)
    (h : mapGet (roundTrip m) k = some v) : v.auth = none := by
  have hwsdoc : ∀ q ∈ ((saveServers m {}).workspaceDoc).getD [],
      (Prod.snd (q : String × JSEntry)).auth = none := by
    intro q hq
    have heq := (saveServers_docs m {}).1
    by_cases hl : (wsOf m).length > 0
    · rw [heq, if_pos hl, Option.getD_some, wsOf] at hq
      rcases List.mem_map.mp hq with ⟨p, _, hp⟩
      rw [← hp]
      exact (persistEntry_fields p.2).1
    · rw [heq, if_neg hl] at hq
      simp at hq
  have hgldoc : ∀ q ∈ ((saveServers m {}).globalDoc).getD [],
      (Prod.snd (q : String × JSEntry)).auth = none := by
    intro q hq
    have heq := (saveServers_docs m {}).2
    by_cases hl : (glOf m).length > 0
    · rw [heq, if_pos hl, Option.getD_some, glOf] at hq
      rcases List.mem_map.mp hq with ⟨p, _, hp⟩
      rw [← hp]
      exact (persistEntry_fields p.2).1
    · rw [heq, if_neg hl] at hq
      simp at hq
  have h' : mapGet (loadGlobalEntries (((saveServers m {}).globalDoc).getD [])
      (loadScopeEntries "workspace" (((saveServers m {}).workspaceDoc).getD []) [])) k =
        some v := h
  rcases loadGlobal_get_src _ _ _ _ h' with ⟨q, hq, hv⟩ | h2
  · rw [hv]
    simpa [loadEntry] using hgldoc q hq
  · rcases loadScope_get_src _ _ _ _ _ h2 with ⟨q, hq, hv⟩ | h3
    · rw [hv]
      simpa [loadEntry] using hwsdoc q hq
    · simp [mapGet] at h3

/-- C9: persisting writes no auth field or credential — every entry of
either freshly derived scope document carries only command, args, env,
type and url (its auth, name, scope and transport fields are absent) —
and after reloading the written documents every server has no
AuthConfig, so authenticating any name fails with no prompt and no
token-cache write. -/
theorem claim9_no_auth_persisted (m : ServersMap) :
    (∀ q ∈ (partitionServers m).1 ++ (partitionServers m).2,
      (Prod.snd (q : String × JSEntry)).auth = none ∧ (Prod.snd q).name = none ∧
      (Prod.snd q).scope = none ∧ (Prod.snd q).transport = none) ∧
    (∀ (tks : TokensMap) (d : Disk) (n : String) (inputs : List (Option String)),
      authenticateServer { servers := roundTrip m, authTokens := tks, disk := d } n inputs =
        ⟨false, tks, none, []⟩) := by
  constructor
  · intro q hq
    rw [partitionServers_eq] at hq
    have hex : ∃ p : String × JSEntry, q.2 = persistEntry p.2 := by
      rcases List.mem_append.mp hq with h | h
      · rw [wsOf] at h
        rcases List.mem_map.mp h with ⟨p, _, hp⟩
        exact ⟨p, by rw [← hp]⟩
      · rw [glOf] at h
        rcases List.mem_map.mp h with ⟨p, _, hp⟩
        exact ⟨p, by rw [← hp]⟩
    rcases hex with ⟨p, hp⟩
    rw [hp]
    exact persistEntry_fields p.2
  · intro tks d n inputs
    cases hm : mapGet (roundTrip m) n with
    | none => simp [authenticateServer, hm]
    | some v =>
      have hv := roundTrip_get_auth_none m n v hm
      simp [authenticateServer, hm, hv]

/-- C9 witness: a server that carries an AuthConfig in memory is
persisted without it, and authentication fails on the reloaded
registry. -/
theorem claim9_witness :
    (persistEntry cfgPersist).auth = none ∧
    authenticateServer { servers := roundTrip mPersist, authTokens := [], disk := {} }
      "a" [some "x"] = ⟨false, [], none, []⟩ :=
  ⟨((claim9_no_auth_persisted mPersist).1 ("a", persistEntry cfgPersist) (by decide)).1,
   (claim9_no_auth_persisted mPersist).2 [] {} "a" [some "x"]⟩

/-- C10: the dispatch on auth.type is total: any kind outside oauth2,
api_key and basic falls to the default branch, returning false with no
prompt and no change to the in-memory or persisted token cache. -/
theorem claim10_unknown_kind (st : ManagerState) (n : String) (srv : JSEntry)
    (a : AuthConfig) (inputs : List (Option String))
    (hs : mapGet st.servers n = some srv) (ha : srv.auth = some a)
    (h1 : a.type ≠ "oauth2") (h2 : a.type ≠ "api_key") (h3 : a.type ≠ "basic") :
    authenticateServer st n inputs = ⟨false, st.authTokens, none, []⟩ := by
  simp [authenticateServer, hs, ha, h1, h2, h3]

/-- C10 witness: an AuthConfig with kind `custom`. -/
theorem claim10_witness :
    authenticateServer stWeird "s" [some "x", some "y"] =
      ⟨false, stWeird.authTokens, none, []⟩ :=
  claim10_unknown_kind stWeird "s" srvWeird aWeird [some "x", some "y"]
    (by decide) (by decide) (by decide) (by decide) (by decide)

end MCPExt
